import Mathlib

/-!
Verification development for the a2a-agent-selfservice repository.

The Python source is shallowly embedded in Lean:
* Python dicts (which preserve insertion order, and keep the original
  position of a key when it is re-assigned) are modelled as association
  lists with `dictInsert` replacing in place and appending new keys.
* Exceptions are modelled with `Except`; the distinguished `ValueError`
  raised by the registry for missing agents is a separate constructor
  from generic propagated exceptions, mirroring the `except ValueError`
  clauses of the HTTP handlers.
* External collaborators (the ADK `Agent` constructor, the runtime
  exchange driven by `Runner.run_async`, the Cosmos client) are
  parameters: the Cosmos container is an explicit association list, the
  constructor outcome is an `Option String` (`some msg` = it raises) and
  the runtime exchange is a function from the submitted payload to
  either an event stream or an exception message.
* Timestamps are `Nat` values passed in as `now` parameters.
-/

/-! ## Association lists modelling Python dicts -/

def dictLookup {α : Type} (k : String) : List (String × α) → Option α
  | [] => none
  | (k2, v) :: rest => if k2 = k then some v else dictLookup k rest

def dictInsert {α : Type} (k : String) (v : α) : List (String × α) → List (String × α)
  | [] => [(k, v)]
  | (k2, v2) :: rest => if k2 = k then (k, v) :: rest else (k2, v2) :: dictInsert k v rest

def dictErase {α : Type} (k : String) : List (String × α) → List (String × α)
  | [] => []
  | (k2, v2) :: rest => if k2 = k then rest else (k2, v2) :: dictErase k rest

/-- A dict has no duplicate keys.  Every dict reachable through
`dictInsert`/`dictErase` from the empty dict satisfies this. -/
def keysNodup {α : Type} (m : List (String × α)) : Prop :=
  (m.map Prod.fst).Nodup

/-! ## Data model (src/a2a_selfservice/models.py) -/

/-- `AgentStatus` from models.py. -/
inductive AgentStatus where
  | draft
  | active
  | inactive
  | deploying
  | failed
  deriving DecidableEq, Repr

/-- A parameter entry inside a tool's JSON-schema `properties` map. -/
structure ParamInfo where
  description : Option String := none
  paramType : Option String := none
  deriving DecidableEq, Repr

/-- The JSON-schema-like shape read out of `ToolDefinition.parameters`
(the code only ever accesses the `properties` and `required` keys). -/
structure ParamSchema where
  properties : Option (List (String × ParamInfo)) := none
  required : List String := []
  deriving DecidableEq, Repr

/-- `ToolDefinition` from models.py. -/
structure ToolDefinition where
  name : String
  description : String
  parameters : ParamSchema := {}
  function_code : Option String := none
  deriving DecidableEq, Repr

/-- `AgentDefinition` from models.py.  Free-form metadata maps are
modelled as string-valued dicts. -/
structure AgentDefinition where
  name : String
  display_name : String
  description : String
  system_prompt : String
  model : String := "gpt-4o"
  tools : List ToolDefinition := []
  sub_agents : List String := []
  metadata : List (String × String) := []
  deriving DecidableEq, Repr

/-- The runnable ADK agent produced by `BaseAgentFactory.create_agent`
(`Agent(name, model, instruction, description, tools, sub_agents)`). -/
inductive AgentInstance where
  | mk (name : String) (model : String) (instruction : String)
      (description : String) (tools : List String)
      (subAgents : List AgentInstance)

def AgentInstance.name : AgentInstance → String
  | .mk n _ _ _ _ _ => n

def AgentInstance.subAgents : AgentInstance → List AgentInstance
  | .mk _ _ _ _ _ s => s

/-- `AgentResponse` from models.py. -/
structure AgentResponse where
  id : String
  name : String
  display_name : String
  description : String
  status : AgentStatus
  a2a_endpoint : Option String := none
  created_at : Nat
  updated_at : Nat
  metadata : List (String × String) := []
  deriving DecidableEq, Repr

/-! ## Cosmos DB storage (src/a2a_selfservice/storage/cosmos.py)

The container is modelled as an association list keyed by the item id
(which `save_agent` always sets to the definition name).  A stored item
has exactly the keys written by `save_agent` — in particular it has no
error field. -/

/-- The item dict written by `CosmosDBStorage.save_agent`. -/
structure StoredItem where
  id : String
  name : String
  agent_id : String
  display_name : String
  description : String
  system_prompt : String
  model : String
  tools : List ToolDefinition
  sub_agents : List String
  metadata : List (String × String)
  status : AgentStatus
  created_at : Nat
  updated_at : Nat
  deriving DecidableEq, Repr

/-- The `definitions` container of the `agents` database. -/
def CosmosDb : Type := List (String × StoredItem)

namespace Cosmos

/-- `CosmosDBStorage.save_agent`: upsert an item built from the
definition, with `created_at = updated_at = now`. -/
def save_agent (db : CosmosDb) (definition : AgentDefinition)
    (agent_id : String) (status : AgentStatus) (now : Nat) :
    StoredItem × CosmosDb :=
  let item : StoredItem :=
    { id := definition.name
      name := definition.name
      agent_id := agent_id
      display_name := definition.display_name
      description := definition.description
      system_prompt := definition.system_prompt
      model := definition.model
      tools := definition.tools
      sub_agents := definition.sub_agents
      metadata := definition.metadata
      status := status
      created_at := now
      updated_at := now }
  (item, dictInsert definition.name item db)

/-- `CosmosDBStorage.get_agent`: read by id, `none` on not-found. -/
def get_agent (db : CosmosDb) (name : String) : Option StoredItem :=
  dictLookup name db

/-- `CosmosDBStorage.update_agent_status`: re-read the item, set only
its `status` and `updated_at` keys, and upsert it back; a missing item
is a no-op returning `none`. -/
def update_agent_status (db : CosmosDb) (name : String)
    (status : AgentStatus) (now : Nat) : Option StoredItem × CosmosDb :=
  match dictLookup name db with
  | none => (none, db)
  | some item =>
    let item2 := { item with status := status, updated_at := now }
    (some item2, dictInsert name item2 db)

/-- `CosmosDBStorage.delete_agent`: `true` if the item existed. -/
def delete_agent (db : CosmosDb) (name : String) : Bool × CosmosDb :=
  match dictLookup name db with
  | none => (false, db)
  | some _ => (true, dictErase name db)

/-- Insert into a list sorted by descending `created_at`. -/
def insertDesc (x : StoredItem) : List StoredItem → List StoredItem
  | [] => [x]
  | y :: ys => if y.created_at < x.created_at then x :: y :: ys else y :: insertDesc x ys

/-- The `ORDER BY c.created_at DESC` of the list query. -/
def sortByCreatedDesc : List StoredItem → List StoredItem
  | [] => []
  | x :: xs => insertDesc x (sortByCreatedDesc xs)

/-- `CosmosDBStorage.list_agents`: query all items ordered by
descending creation time, then slice `items[start:end]` with
`start = (page-1)*page_size` and `end = start + page_size`.  The model
covers `page ≥ 1` (the slice bounds are then non-negative). -/
def list_agents (db : CosmosDb) (page page_size : Nat) :
    List StoredItem × Nat :=
  let items := sortByCreatedDesc (db.map Prod.snd)
  let total := items.length
  (((items.drop ((page - 1) * page_size)).take page_size), total)

/-- `CosmosDBStorage.to_definition`. -/
def to_definition (item : StoredItem) : AgentDefinition :=
  { name := item.name
    display_name := item.display_name
    description := item.description
    system_prompt := item.system_prompt
    model := item.model
    tools := item.tools
    sub_agents := item.sub_agents
    metadata := item.metadata }

end Cosmos

/-! ## Agent instance factory (src/a2a_selfservice/agents/base.py) -/

/-- The factory's collaborators: the repository tool registry
(`get_tool`, a static name catalog), the model binding chosen once by
`_get_model`, and the outcome of the external ADK `Agent` constructor
(`some msg` models the constructor raising with message `msg`). -/
structure FactoryEnv where
  catalog : List String
  modelBinding : String
  ctorFail : Option String := none

/-- `BaseAgentFactory.create_tools`: resolve each declared tool name
against the catalog, silently dropping (with a logged error) any name
that has no registered implementation. -/
def create_tools (env : FactoryEnv) (tds : List ToolDefinition) : List String :=
  tds.filterMap (fun td => if env.catalog.contains td.name then some td.name else none)

/-- `BaseAgentFactory.create_agent`: build the runnable agent, or
propagate the constructor's exception. -/
def factory_create_agent (env : FactoryEnv) (definition : AgentDefinition)
    (subAgents : List AgentInstance) : Except String AgentInstance :=
  match env.ctorFail with
  | some e => .error e
  | none => .ok (.mk definition.name env.modelBinding definition.system_prompt
      definition.description (create_tools env definition.tools) subAgents)

/-! ## Agent registry (src/a2a_selfservice/agents/registry.py) -/

/-- The in-memory `_metadata[name]` dict kept by the registry when no
Cosmos connection string is configured.  The optional fields are the
keys assigned only later (`a2a_endpoint` on successful deploy, `error`
on failed deploy). -/
structure MemMeta where
  id : String
  created_at : Nat
  updated_at : Nat
  status : AgentStatus
  a2a_endpoint : Option String := none
  error : Option String := none
  deriving DecidableEq, Repr

/-- The mutable state of an `AgentRegistry` object:
`storage = some db` models a configured Cosmos container, `none` the
in-memory fallback; `agents` is the runnable-instance cache;
`definitions`/`metadata` are the in-memory fallback maps. -/
structure RegistryState where
  a2a_service_url : String
  storage : Option CosmosDb
  agents : List (String × AgentInstance)
  definitions : List (String × AgentDefinition)
  metadata : List (String × MemMeta)

/-- Exceptions escaping registry methods: `valueError` for the
`ValueError`s the registry raises itself (missing agent), `exc` for
any other exception propagated from a collaborator (factory errors). -/
inductive RegError where
  | valueError (msg : String)
  | exc (msg : String)
  deriving DecidableEq, Repr

namespace Registry

/-- Apply `f` to the in-memory metadata entry of `name` (the entry is
present whenever the in-memory definition is, which the registry keeps
in sync). -/
def updMemMeta (name : String) (f : MemMeta → MemMeta)
    (st : RegistryState) : RegistryState :=
  match dictLookup name st.metadata with
  | some m => { st with metadata := dictInsert name (f m) st.metadata }
  | none => st

/-- A status update as performed by `deploy_agent`: through
`update_agent_status` when storage is configured, otherwise by
assigning keys of the in-memory metadata dict (`f` is that
assignment). -/
def updateStatus (name : String) (status : AgentStatus) (now : Nat)
    (f : MemMeta → MemMeta) (st : RegistryState) : RegistryState :=
  match st.storage with
  | some db => { st with storage := some (Cosmos.update_agent_status db name status now).2 }
  | none => updMemMeta name f st

/-- The status recorded for `name` in the authoritative store. -/
def statusOf (name : String) (st : RegistryState) : Option AgentStatus :=
  match st.storage with
  | some db => (dictLookup name db).map StoredItem.status
  | none => (dictLookup name st.metadata).map MemMeta.status

/-- The deployment error recorded for `name`.  Only the in-memory
metadata dict has an `error` key; the Cosmos item schema written by
`save_agent`/`update_agent_status` has no error field at all. -/
def recordedError (name : String) (st : RegistryState) : Option String :=
  match st.storage with
  | some _ => none
  | none => (dictLookup name st.metadata).bind MemMeta.error

/-- `AgentRegistry._get_definition`. -/
def getDefinition (name : String) (st : RegistryState) : Option AgentDefinition :=
  match st.storage with
  | some db =>
    match Cosmos.get_agent db name with
    | some item => some (Cosmos.to_definition item)
    | none => none
  | none => dictLookup name st.definitions

/-- `AgentRegistry._build_response_from_item`. -/
def buildResponseFromItem (st : RegistryState) (item : StoredItem) : AgentResponse :=
  { id := item.agent_id
    name := item.name
    display_name := item.display_name
    description := item.description
    status := item.status
    a2a_endpoint := some (st.a2a_service_url ++ "/api/v1/agents/" ++ item.name ++ "/invoke")
    created_at := item.created_at
    updated_at := item.updated_at
    metadata := item.metadata }

/-- `AgentRegistry._build_response`: raises `ValueError` when the agent
is unknown.  In the in-memory branch the metadata entry accompanies the
definition entry; on the (unreachable on in-sync states) missing-entry
case the model reports the same `ValueError`. -/
def buildResponse (name : String) (st : RegistryState) : Except RegError AgentResponse :=
  match st.storage with
  | some db =>
    match Cosmos.get_agent db name with
    | none => .error (.valueError ("Agent " ++ name ++ " not found"))
    | some item => .ok (buildResponseFromItem st item)
  | none =>
    match dictLookup name st.definitions, dictLookup name st.metadata with
    | some definition, some m =>
      .ok { id := m.id
            name := definition.name
            display_name := definition.display_name
            description := definition.description
            status := m.status
            a2a_endpoint := m.a2a_endpoint
            created_at := m.created_at
            updated_at := m.updated_at
            metadata := definition.metadata }
    | _, _ => .error (.valueError ("Agent " ++ name ++ " not found"))

/-- `AgentRegistry.deploy_agent`. -/
def deploy_agent (env : FactoryEnv) (name : String) (now : Nat)
    (st : RegistryState) : Except RegError AgentResponse × RegistryState :=
  match getDefinition name st with
  | none => (.error (.valueError ("Agent " ++ name ++ " not found")), st)
  | some definition =>
    let st1 := updateStatus name .deploying now
      (fun m => { m with status := .deploying, updated_at := now }) st
    let subs := definition.sub_agents.filterMap (fun n => dictLookup n st1.agents)
    match factory_create_agent env definition subs with
    | .ok agent =>
      let st2 := { st1 with agents := dictInsert name agent st1.agents }
      let endpoint := st2.a2a_service_url ++ "/api/v1/agents/" ++ name ++ "/invoke"
      let st3 := updateStatus name .active now
        (fun m => { m with status := .active, a2a_endpoint := some endpoint }) st2
      (buildResponse name st3, st3)
    | .error e =>
      let st2 := updateStatus name .failed now
        (fun m => { m with status := .failed, error := some e }) st1
      (.error (.exc e), st2)

/-- `AgentRegistry.register_agent`: upsert the definition with a fresh
id and `DRAFT` status, then optionally chain into `deploy_agent`
(whose exception, if any, propagates unrolled). -/
def register_agent (env : FactoryEnv) (definition : AgentDefinition)
    (deploy : Bool) (agent_id : String) (now : Nat)
    (st : RegistryState) : Except RegError AgentResponse × RegistryState :=
  let st1 :=
    match st.storage with
    | some db => { st with storage := some (Cosmos.save_agent db definition agent_id .draft now).2 }
    | none =>
      { st with
        definitions := dictInsert definition.name definition st.definitions
        metadata := dictInsert definition.name
          { id := agent_id, created_at := now, updated_at := now, status := .draft }
          st.metadata }
  if deploy then
    match deploy_agent env definition.name now st1 with
    | (.error e, st2) => (.error e, st2)
    | (.ok _, st2) => (buildResponse definition.name st2, st2)
  else
    (buildResponse definition.name st1, st1)

/-- `AgentRegistry.get_agent`. -/
def get_agent (name : String) (st : RegistryState) : Except RegError AgentResponse :=
  buildResponse name st

/-- `AgentRegistry.list_agents`.  In the in-memory branch the code
builds a response for every name in `_definitions` (each lookup
succeeds on in-sync states, hence the `filterMap` over the
`Except`-valued builder). -/
def list_agents (page page_size : Nat) (st : RegistryState) :
    List AgentResponse × Nat :=
  match st.storage with
  | some db =>
    let r := Cosmos.list_agents db page page_size
    (r.1.map (buildResponseFromItem st), r.2)
  | none =>
    let agents := st.definitions.filterMap (fun p => (buildResponse p.1 st).toOption)
    let total := agents.length
    ((agents.drop ((page - 1) * page_size)).take page_size, total)

/-- `AgentRegistry.delete_agent`. -/
def delete_agent (name : String) (st : RegistryState) :
    Except RegError Unit × RegistryState :=
  match st.storage with
  | some db =>
    match Cosmos.delete_agent db name with
    | (false, _) => (.error (.valueError ("Agent " ++ name ++ " not found")), st)
    | (true, db2) =>
      (.ok (), { st with storage := some db2, agents := dictErase name st.agents })
  | none =>
    match dictLookup name st.definitions with
    | none => (.error (.valueError ("Agent " ++ name ++ " not found")), st)
    | some _ =>
      (.ok (), { st with
        definitions := dictErase name st.definitions
        metadata := dictErase name st.metadata
        agents := dictErase name st.agents })

/-- `AgentRegistry.get_agent_instance`: return the cached instance; if
absent but a persisted `ACTIVE` item exists, lazily rebuild it with an
empty sub-agent list and cache it (returning the freshly cached
instance); a rebuild failure yields `none` without raising. -/
def get_agent_instance (env : FactoryEnv) (name : String)
    (st : RegistryState) : Option AgentInstance × RegistryState :=
  match dictLookup name st.agents, st.storage with
  | none, some db =>
    match Cosmos.get_agent db name with
    | some item =>
      if item.status = .active then
        match factory_create_agent env (Cosmos.to_definition item) [] with
        | .ok agent => (some agent, { st with agents := dictInsert name agent st.agents })
        | .error _ => (none, st)
      else (none, st)
    | none => (none, st)
  | cached, _ => (cached, st)

end Registry

/-! ## Management API handlers (src/a2a_selfservice/api/routes.py) -/

/-- An HTTP error response produced by a handler. -/
structure HttpError where
  status_code : Nat
  detail : String
  deriving DecidableEq, Repr

namespace Api

/-- `POST /agents` (`create_agent`): `ValueError` maps to 400, any
other exception to 500. -/
def create_agent (env : FactoryEnv) (definition : AgentDefinition)
    (deploy_immediately : Bool) (agent_id : String) (now : Nat)
    (st : RegistryState) : Except HttpError AgentResponse × RegistryState :=
  match Registry.register_agent env definition deploy_immediately agent_id now st with
  | (.ok r, st2) => (.ok r, st2)
  | (.error (.valueError m), st2) => (.error { status_code := 400, detail := m }, st2)
  | (.error (.exc m), st2) => (.error { status_code := 500, detail := m }, st2)

/-- `GET /agents/{name}` (`get_agent`): `ValueError` maps to 404. -/
def get_agent (name : String) (st : RegistryState) :
    Except HttpError AgentResponse :=
  match Registry.get_agent name st with
  | .ok r => .ok r
  | .error (.valueError m) => .error { status_code := 404, detail := m }
  | .error (.exc m) => .error { status_code := 500, detail := m }

/-- `POST /agents/{name}/deploy` (`deploy_agent`): `ValueError` maps to
404, any other exception to 500. -/
def deploy_agent (env : FactoryEnv) (name : String) (now : Nat)
    (st : RegistryState) : Except HttpError AgentResponse × RegistryState :=
  match Registry.deploy_agent env name now st with
  | (.ok r, st2) => (.ok r, st2)
  | (.error (.valueError m), st2) => (.error { status_code := 404, detail := m }, st2)
  | (.error (.exc m), st2) => (.error { status_code := 500, detail := m }, st2)

end Api

/-! ## A2A protocol models (src/a2a_selfservice/a2a/models.py) -/

namespace A2A

/-- `TaskState`. -/
inductive TaskState where
  | submitted
  | working
  | inputRequired
  | completed
  | canceled
  | failed
  deriving DecidableEq, Repr

/-- `MessageRole`. -/
inductive MessageRole where
  | user
  | agent
  deriving DecidableEq, Repr

/-- `Part`: a typed message part; `text` is `none` for non-text
parts. -/
structure Part where
  partType : String := "text"
  text : Option String := none
  data : Option String := none
  mime_type : Option String := none
  deriving DecidableEq, Repr

/-- `Message`. -/
structure Message where
  role : MessageRole
  parts : List Part
  metadata : List (String × String) := []
  deriving DecidableEq, Repr

/-- `Artifact`. -/
structure Artifact where
  id : String
  name : String
  mime_type : String
  data : String
  metadata : List (String × String) := []
  deriving DecidableEq, Repr

/-- `Task`. -/
structure Task where
  id : String
  session_id : Option String := none
  state : TaskState := .submitted
  messages : List Message := []
  artifacts : List Artifact := []
  metadata : List (String × String) := []
  created_at : Nat := 0
  updated_at : Nat := 0
  deriving DecidableEq, Repr

/-- `TaskCreateRequest`. -/
structure TaskCreateRequest where
  message : Message
  session_id : Option String := none
  metadata : List (String × String) := []
  deriving DecidableEq, Repr

/-- `SkillParameter`. -/
structure SkillParameter where
  name : String
  description : Option String := none
  paramType : String := "string"
  required : Bool := false
  deriving DecidableEq, Repr

/-- `Skill`. -/
structure Skill where
  id : String
  name : String
  description : Option String := none
  parameters : List SkillParameter := []
  deriving DecidableEq, Repr

/-- `AgentCard` (the fields the route populates). -/
structure AgentCard where
  name : String
  description : String
  url : String
  version : String := "1.0.0"
  skills : List Skill := []
  protocol_version : String := "0.1"
  deriving DecidableEq, Repr

/-! ## The runtime exchange (a2a/routes.py, lines shared by
`create_task` and `send_message_to_task`)

Response events are duck-typed in the source (`hasattr` probing on
`event.content.parts[i].text` and `event.text`); they are modelled as
a tagged variant per observed shape:
* `structured ps`: an event with truthy `content` carrying a `parts`
  list, `ps` listing each part's optional `text` attribute;
* `contentNoParts`: an event with truthy `content` lacking a `parts`
  attribute (contributes nothing, and its presence short-circuits the
  `elif` on `event.text`);
* `flat t`: an event without truthy content but with a `text`
  attribute;
* `silent`: an event with neither. -/
inductive RunEvent where
  | structured (parts : List (Option String))
  | contentNoParts
  | flat (text : Option String)
  | silent
  deriving DecidableEq, Repr

/-- The contribution of one optional text attribute, mirroring
`if ... and part.text: response_text += part.text` (absent or empty
text contributes nothing). -/
def textContrib : Option String → String
  | some t => if t.isEmpty then "" else t
  | none => ""

/-- The text extracted from one response event. -/
def eventText : RunEvent → String
  | .structured parts => parts.foldl (fun acc o => acc ++ textContrib o) ""
  | .contentNoParts => ""
  | .flat t => textContrib t
  | .silent => ""

/-- The `response_text` accumulation over the event stream. -/
def aggregateResponse (events : List RunEvent) : String :=
  events.foldl (fun acc e => acc ++ eventText e) ""

/-- The `user_text` accumulation over the outgoing message's parts
(`for part in message.parts: if part.text: user_text += part.text`). -/
def extractUserText (msg : Message) : String :=
  msg.parts.foldl (fun acc p => acc ++ textContrib p.text) ""

/-- The reply message appended on success: a single text part wrapping
the aggregate response. -/
def agentReply (response_text : String) : Message :=
  { role := .agent, parts := [{ partType := "text", text := some response_text }] }

/-- The behavior of the external runtime for one exchange, as a
function of the submitted text payload: either the consumed event
stream, or the exception message it raises.  It also covers the other
fallible steps inside the same `try` block (session creation, runner
construction). -/
def Exchange : Type := String → Except String (List RunEvent)

end A2A

/-! ## A2A protocol handlers (src/a2a_selfservice/a2a/routes.py) -/

namespace A2A

/-- The in-memory task store (`tasks: dict[str, Task]`). -/
def TaskStore : Type := List (String × Task)

/-- The wire value of a task state (`TaskState` is a `str` enum). -/
def TaskState.value : TaskState → String
  | .submitted => "submitted"
  | .working => "working"
  | .inputRequired => "input-required"
  | .completed => "completed"
  | .canceled => "canceled"
  | .failed => "failed"

/-- Failures raised by the task handlers as `HTTPException`s. -/
inductive A2AFailure where
  | notFound (detail : String)
  | invalidState (detail : String)
  deriving DecidableEq, Repr

/-- The HTTP status the handler attaches to each failure. -/
def A2AFailure.statusCode : A2AFailure → Nat
  | .notFound _ => 404
  | .invalidState _ => 400

/-- How a request to `GET /agents/{name}/agent.json` terminates:
either a card, an `HTTPException` raised by the handler, or an
exception escaping the handler unhandled (which the framework maps to
a generic 500, not a protocol-level 404). -/
inductive CardOutcome where
  | ok (card : AgentCard)
  | httpError (status_code : Nat) (detail : String)
  | unhandledError (msg : String)
  deriving DecidableEq, Repr

/-- The skills list built from a definition's tools. -/
def buildSkills (tools : List ToolDefinition) : List Skill :=
  tools.map (fun tool =>
    let params :=
      match tool.parameters.properties with
      | some props => props.map (fun p =>
          { name := p.1
            description := some (p.2.description.getD "")
            paramType := p.2.paramType.getD "string"
            required := tool.parameters.required.contains p.1 : SkillParameter })
      | none => []
    { id := tool.name, name := tool.name, description := some tool.description,
      parameters := params })

/-- `get_agent_card`: the handler calls `registry.get_agent`, which
raises `ValueError` for an unknown agent; the handler has no
`try`/`except`, so that exception escapes unhandled.  Its
`if not agent_response` guard (the intended 404) can never fire, since
`get_agent` either raises or returns a (truthy) response object. -/
def get_agent_card (base_url : String) (name : String)
    (st : RegistryState) : CardOutcome :=
  match Registry.get_agent name st with
  | .error (.valueError m) => .unhandledError m
  | .error (.exc m) => .unhandledError m
  | .ok resp =>
    let agentResponseTruthy := true
    if agentResponseTruthy = false then
      .httpError 404 ("Agent " ++ name ++ " not found")
    else
      let skills :=
        match Registry.getDefinition name st with
        | some definition => if definition.tools.isEmpty then [] else buildSkills definition.tools
        | none => []
      .ok { name := name
            description := resp.description
            url := base_url ++ "/a2a/agents/" ++ name
            version := "1.0.0"
            skills := skills
            protocol_version := "0.1" }

/-- `create_task` (`POST /agents/{name}/tasks`).  `task_id` and
`fresh_session` stand for the generated `uuid4()` strings; `exchange`
is the runtime collaborator. -/
def create_task (env : FactoryEnv) (agent_name : String)
    (request : TaskCreateRequest) (task_id fresh_session : String)
    (exchange : Exchange) (st : RegistryState) (tasks : TaskStore) :
    Except A2AFailure Task × RegistryState × TaskStore :=
  match Registry.get_agent_instance env agent_name st with
  | (none, st2) =>
    (.error (.notFound ("Agent " ++ agent_name ++ " not found or not deployed")), st2, tasks)
  | (some _, st2) =>
    let session_id := request.session_id.getD fresh_session
    let task0 : Task :=
      { id := task_id
        session_id := some session_id
        state := .working
        messages := [request.message]
        metadata := request.metadata }
    let user_text := extractUserText request.message
    let task :=
      match exchange user_text with
      | .ok events =>
        { task0 with
          messages := task0.messages ++ [agentReply (aggregateResponse events)]
          state := .completed }
      | .error e =>
        { task0 with
          state := .failed
          metadata := dictInsert "error" e task0.metadata }
    (.ok task, st2, dictInsert task_id task tasks)

/-- `get_task` (`GET /agents/{name}/tasks/{id}`). -/
def get_task (task_id : String) (tasks : TaskStore) : Except A2AFailure Task :=
  match dictLookup task_id tasks with
  | none => .error (.notFound ("Task " ++ task_id ++ " not found"))
  | some t => .ok t

/-- `send_message_to_task` (`POST /agents/{name}/tasks/{id}/messages`):
unknown task → 404; task in `canceled`/`failed` → 400 before anything
is appended; unknown agent → 404; otherwise append the user message,
go `working`, drive one exchange on the task's session, and resolve to
`completed`/`failed` exactly as in create. -/
def send_message_to_task (env : FactoryEnv) (agent_name task_id : String)
    (message : Message) (exchange : Exchange)
    (st : RegistryState) (tasks : TaskStore) :
    Except A2AFailure Task × RegistryState × TaskStore :=
  match dictLookup task_id tasks with
  | none =>
    (.error (.notFound ("Task " ++ task_id ++ " not found")), st, tasks)
  | some task =>
    if task.state = .canceled ∨ task.state = .failed then
      (.error (.invalidState ("Cannot send message to task in state " ++ task.state.value)), st, tasks)
    else
      match Registry.get_agent_instance env agent_name st with
      | (none, st2) =>
        (.error (.notFound ("Agent " ++ agent_name ++ " not found or not deployed")), st2, tasks)
      | (some _, st2) =>
        let task1 := { task with messages := task.messages ++ [message], state := .working }
        let user_text := extractUserText message
        let task2 :=
          match exchange user_text with
          | .ok events =>
            { task1 with
              messages := task1.messages ++ [agentReply (aggregateResponse events)]
              state := .completed }
          | .error e =>
            { task1 with
              state := .failed
              metadata := dictInsert "error" e task1.metadata }
        (.ok task2, st2, dictInsert task_id task2 tasks)

/-- `cancel_task` (`POST /agents/{name}/tasks/{id}/cancel`): unknown
task → 404, otherwise the state is unconditionally set to `canceled`
whatever it was. -/
def cancel_task (task_id : String) (tasks : TaskStore) :
    Except A2AFailure Task × TaskStore :=
  match dictLookup task_id tasks with
  | none => (.error (.notFound ("Task " ++ task_id ++ " not found")), tasks)
  | some task =>
    let t := { task with state := TaskState.canceled }
    (.ok t, dictInsert task_id t tasks)

end A2A

/-! ## Registry operation sequences (for temporal claims) -/

/-- One mutating registry operation, as reachable through the
management API: register (with optional chained deploy), deploy, or
delete. -/
inductive RegOp where
  | registerOp (definition : AgentDefinition) (deploy : Bool) (agent_id : String)
  | deployOp (name : String)
  | deleteOp (name : String)

def RegOp.isRegister : RegOp → Bool
  | .registerOp .. => true
  | _ => false

/-- Run one operation, keeping the resulting registry state. -/
def runOp (env : FactoryEnv) (now : Nat) (op : RegOp) (st : RegistryState) :
    RegistryState :=
  match op with
  | .registerOp d b i => (Registry.register_agent env d b i now st).2
  | .deployOp n => (Registry.deploy_agent env n now st).2
  | .deleteOp n => (Registry.delete_agent n st).2

/-- Run a sequence of operations left to right. -/
def runOps (env : FactoryEnv) (now : Nat) (ops : List RegOp)
    (st : RegistryState) : RegistryState :=
  ops.foldl (fun s op => runOp env now op s) st

/-- The full, unsliced response list that `Registry.list_agents`
paginates: the stable ordering of the registry (store order — i.e.
descending creation time — when Cosmos is configured; insertion order
of the in-memory definitions dict otherwise). -/
def Registry.allResponses (st : RegistryState) : List AgentResponse :=
  match st.storage with
  | some db =>
    (Cosmos.sortByCreatedDesc (db.map Prod.snd)).map (Registry.buildResponseFromItem st)
  | none =>
    st.definitions.filterMap (fun p => (Registry.buildResponse p.1 st).toOption)

/-! ## Sample inputs used by witness theorems -/

/-- A factory environment whose external constructor succeeds. -/
def sampleEnv : FactoryEnv := { catalog := [], modelBinding := "gemini-2.0-flash" }

/-- A factory environment whose external constructor raises "boom". -/
def sampleEnvFail : FactoryEnv :=
  { catalog := [], modelBinding := "gemini-2.0-flash", ctorFail := some "boom" }

/-- A minimal agent definition named "echo". -/
def sampleDefinition : AgentDefinition :=
  { name := "echo", display_name := "Echo", description := "echoes",
    system_prompt := "You echo." }

/-- A cached runnable instance for "echo". -/
def sampleInstance : AgentInstance :=
  .mk "echo" "gemini-2.0-flash" "You echo." "echoes" [] []

/-- An empty in-memory registry. -/
def memEmpty : RegistryState :=
  { a2a_service_url := "http://localhost:8000", storage := none,
    agents := [], definitions := [], metadata := [] }

/-- An in-memory registry with the "echo" instance cached and its
definition registered and active. -/
def memWithEcho : RegistryState :=
  { a2a_service_url := "http://localhost:8000", storage := none,
    agents := [("echo", sampleInstance)],
    definitions := [("echo", sampleDefinition)],
    metadata := [("echo", { id := "id-1", created_at := 0, updated_at := 0, status := .active })] }

/-- A registry backed by a Cosmos container holding a draft "echo"
item. -/
def cosmosWithDraftEcho : RegistryState :=
  { a2a_service_url := "http://localhost:8000",
    storage := some [("echo", (Cosmos.save_agent [] sampleDefinition "id-1" .draft 0).1)],
    agents := [], definitions := [], metadata := [] }

/-- A registry backed by a Cosmos container holding an active "echo"
item that declares a sub-agent, with an empty instance cache. -/
def cosmosWithActiveEcho : RegistryState :=
  { a2a_service_url := "http://localhost:8000",
    storage := some
      [("echo",
        (Cosmos.save_agent [] { sampleDefinition with sub_agents := ["helper"] } "id-1" .active 0).1)],
    agents := [], definitions := [], metadata := [] }

/-- A numbered agent definition for the pagination scenario. -/
def numberedDefinition (i : Nat) : AgentDefinition :=
  { name := "agent" ++ toString i, display_name := "Agent " ++ toString i,
    description := "numbered", system_prompt := "You count." }

/-- An in-memory registry obtained by registering 15 agents. -/
def st15 : RegistryState :=
  (List.range 15).foldl
    (fun s i =>
      (Registry.register_agent sampleEnv (numberedDefinition i) false (toString i) i s).2)
    memEmpty

/-- A user message with one text part "hi" and one non-text part. -/
def sampleMessage : A2A.Message :=
  { role := .user,
    parts := [{ partType := "text", text := some "hi" },
              { partType := "file", text := none, data := some "QUJD", mime_type := some "application/octet-stream" }] }

/-- A create-task request carrying `sampleMessage`. -/
def sampleRequest : A2A.TaskCreateRequest := { message := sampleMessage }

/-- A runtime that replies "hel" then "lo" as two events. -/
def sampleExchangeOk : A2A.Exchange :=
  fun _ => .ok [.structured [some "hel", none], .flat (some "lo")]

/-- A runtime that raises. -/
def sampleExchangeErr : A2A.Exchange := fun _ => .error "runtime down"

/-- A stored task in the `failed` state. -/
def sampleFailedTask : A2A.Task :=
  { id := "t1", session_id := some "s1", state := .failed,
    messages := [sampleMessage], metadata := [("error", "runtime down")] }

/-- A stored task in the `working` state. -/
def sampleWorkingTask : A2A.Task :=
  { id := "t2", session_id := some "s2", state := .working,
    messages := [sampleMessage] }

/-! ## Proofs: dictionary lemmas -/

theorem dictLookup_insert_self {α : Type} (k : String) (v : α) :
    ∀ m : List (String × α), dictLookup k (dictInsert k v m) = some v := by
  intro m
  induction m with
  | nil => simp [dictInsert, dictLookup]
  | cons hd tl ih =>
    by_cases h : hd.1 = k
    · simp [dictInsert, dictLookup, h]
    · simp [dictInsert, dictLookup, h, ih]

theorem dictLookup_insert_of_ne {α : Type} {j k : String} (h : j ≠ k) (v : α) :
    ∀ m : List (String × α), dictLookup j (dictInsert k v m) = dictLookup j m := by
  have hkj : ¬ (k = j) := fun hh => h hh.symm
  intro m
  induction m with
  | nil => simp [dictInsert, dictLookup, hkj]
  | cons hd tl ih =>
    by_cases h2 : hd.1 = k
    · subst h2
      have hj : ¬ (hd.1 = j) := fun hh => h hh.symm
      simp [dictInsert, dictLookup, hj]
    · by_cases h3 : hd.1 = j <;> simp [dictInsert, dictLookup, h2, h3, h, ih]

theorem dictLookup_erase_of_ne {α : Type} {j k : String} (h : j ≠ k) :
    ∀ m : List (String × α), dictLookup j (dictErase k m) = dictLookup j m := by
  intro m
  induction m with
  | nil => simp [dictErase]
  | cons hd tl ih =>
    by_cases h2 : hd.1 = k
    · subst h2
      have hj : ¬ (hd.1 = j) := fun hh => h hh.symm
      simp [dictErase, dictLookup, hj]
    · by_cases h3 : hd.1 = j <;> simp [dictErase, dictLookup, h2, h3, h, ih]

theorem dictLookup_eq_none_of_not_mem {α : Type} (k : String) :
    ∀ m : List (String × α), k ∉ m.map Prod.fst → dictLookup k m = none := by
  intro m
  induction m with
  | nil => simp [dictLookup]
  | cons hd tl ih =>
    intro h
    have h1 : hd.1 ≠ k := by
      intro hh
      exact h (by simp [hh])
    simp only [dictLookup, if_neg h1]
    exact ih (fun hin => h (List.mem_cons_of_mem _ hin))

theorem dictLookup_erase_self {α : Type} (k : String) :
    ∀ m : List (String × α), keysNodup m → dictLookup k (dictErase k m) = none := by
  intro m
  induction m with
  | nil => simp [dictErase, dictLookup]
  | cons hd tl ih =>
    intro hnd
    by_cases h2 : hd.1 = k
    · subst h2
      simp only [dictErase, if_pos rfl]
      exact dictLookup_eq_none_of_not_mem _ tl (List.nodup_cons.mp hnd).1
    · simp [dictErase, dictLookup, h2, ih (List.nodup_cons.mp hnd).2]

/-! ## Proofs: string concatenation lemmas -/

theorem String.join_cons (s : String) (l : List String) :
    String.join (s :: l) = s ++ String.join l := by
  apply String.ext
  simp [String.data_join]

theorem foldl_append_eq {α : Type} (g : α → String) :
    ∀ (l : List α) (acc : String),
      l.foldl (fun a x => a ++ g x) acc = acc ++ String.join (l.map g) := by
  intro l
  induction l with
  | nil => intro acc; simp [String.join]
  | cons hd tl ih =>
    intro acc
    simp only [List.foldl_cons, List.map_cons, String.join_cons]
    rw [ih, String.append_assoc]

theorem join_textContrib_eq_filterMap :
    ∀ ps : List (Option String),
      String.join (ps.map A2A.textContrib) = String.join (ps.filterMap id) := by
  intro ps
  induction ps with
  | nil => rfl
  | cons hd tl ih =>
    cases hd with
    | none => simpa [A2A.textContrib, String.join_cons, String.empty_append] using ih
    | some t =>
      by_cases ht : t.isEmpty
      · have hte : t = "" := (String.isEmpty_iff t).mp ht
        subst hte
        simpa [A2A.textContrib, String.join_cons, String.empty_append] using ih
      · simp [A2A.textContrib, ht, String.join_cons, ih]

/-! ## Claim C1 -/

/-- C1: for every agent with a deployed instance and every create-task
request, `create_task` returns the Task normally (never a
protocol-level error), the returned state is `completed` or `failed`
and never `working` or `submitted`; a successful runtime exchange
yields `completed`, and a runtime exception yields `failed` with the
error string recorded under the "error" key of the task's metadata. -/
theorem create_task_resolves_synchronously
    (env : FactoryEnv) (agent_name : String) (request : A2A.TaskCreateRequest)
    (task_id fresh_session : String) (exchange : A2A.Exchange)
    (st st2 : RegistryState) (tasks : A2A.TaskStore) (a : AgentInstance)
    (hdeployed : Registry.get_agent_instance env agent_name st = (some a, st2)) :
    ∃ t : A2A.Task,
      A2A.create_task env agent_name request task_id fresh_session exchange st tasks
        = (.ok t, st2, dictInsert task_id t tasks) ∧
      (t.state = .completed ∨ t.state = .failed) ∧
      t.state ≠ .working ∧ t.state ≠ .submitted ∧
      (∀ events, exchange (A2A.extractUserText request.message) = .ok events →
        t.state = .completed) ∧
      (∀ e, exchange (A2A.extractUserText request.message) = .error e →
        t.state = .failed ∧ dictLookup "error" t.metadata = some e) := by
  cases hex : exchange (A2A.extractUserText request.message) with
  | ok events =>
    refine ⟨{ id := task_id
              session_id := some (request.session_id.getD fresh_session)
              state := .completed
              messages := [request.message, A2A.agentReply (A2A.aggregateResponse events)]
              metadata := request.metadata }, ?_, Or.inl rfl,
            fun h => A2A.TaskState.noConfusion h, fun h => A2A.TaskState.noConfusion h,
            fun _ _ => rfl, fun _ he => Except.noConfusion he⟩
    simp [A2A.create_task, hdeployed, hex]
  | error e =>
    refine ⟨{ id := task_id
              session_id := some (request.session_id.getD fresh_session)
              state := .failed
              messages := [request.message]
              metadata := dictInsert "error" e request.metadata }, ?_, Or.inr rfl,
            fun h => A2A.TaskState.noConfusion h, fun h => A2A.TaskState.noConfusion h,
            fun _ hev => Except.noConfusion hev, ?_⟩
    · simp [A2A.create_task, hdeployed, hex]
    · intro e2 he2
      injection he2 with h
      subst h
      exact ⟨rfl, dictLookup_insert_self "error" e request.metadata⟩

/-- Witness for C1 at concrete inputs, on both a succeeding and a
failing runtime. -/
theorem create_task_resolves_synchronously_witness :
    (Registry.get_agent_instance sampleEnv "echo" memWithEcho
      = (some sampleInstance, memWithEcho) ∧
     ∃ t : A2A.Task,
       A2A.create_task sampleEnv "echo" sampleRequest "t9" "s9" sampleExchangeOk memWithEcho []
         = (.ok t, memWithEcho, dictInsert "t9" t []) ∧
       (t.state = .completed ∨ t.state = .failed) ∧
       t.state ≠ .working ∧ t.state ≠ .submitted ∧
       (∀ events, sampleExchangeOk (A2A.extractUserText sampleRequest.message) = .ok events →
         t.state = .completed) ∧
       (∀ e, sampleExchangeOk (A2A.extractUserText sampleRequest.message) = .error e →
         t.state = .failed ∧ dictLookup "error" t.metadata = some e)) ∧
    (∃ t : A2A.Task,
       A2A.create_task sampleEnv "echo" sampleRequest "t9" "s9" sampleExchangeErr memWithEcho []
         = (.ok t, memWithEcho, dictInsert "t9" t []) ∧
       (t.state = .completed ∨ t.state = .failed) ∧
       t.state ≠ .working ∧ t.state ≠ .submitted ∧
       (∀ events, sampleExchangeErr (A2A.extractUserText sampleRequest.message) = .ok events →
         t.state = .completed) ∧
       (∀ e, sampleExchangeErr (A2A.extractUserText sampleRequest.message) = .error e →
         t.state = .failed ∧ dictLookup "error" t.metadata = some e)) :=
  ⟨⟨rfl, create_task_resolves_synchronously sampleEnv "echo" sampleRequest "t9" "s9"
      sampleExchangeOk memWithEcho memWithEcho [] sampleInstance rfl⟩,
   create_task_resolves_synchronously sampleEnv "echo" sampleRequest "t9" "s9"
      sampleExchangeErr memWithEcho memWithEcho [] sampleInstance rfl⟩

/-! ## Claim C2 -/

/-- C2: `send_message_to_task` on a task currently `failed` or
`canceled` fails with `InvalidState` (surfaced with HTTP status 400)
and leaves the task store — in particular that task's message list —
unchanged; on an unknown task id it fails with `NotFound`. -/
theorem send_message_rejects_terminal_and_unknown
    (env : FactoryEnv) (agent_name task_id : String) (message : A2A.Message)
    (exchange : A2A.Exchange) (st : RegistryState) (tasks : A2A.TaskStore) :
    (∀ task : A2A.Task, dictLookup task_id tasks = some task →
      task.state = .failed ∨ task.state = .canceled →
      A2A.send_message_to_task env agent_name task_id message exchange st tasks
        = (.error (.invalidState
            ("Cannot send message to task in state " ++ task.state.value)), st, tasks) ∧
      (A2A.A2AFailure.invalidState
        ("Cannot send message to task in state " ++ task.state.value)).statusCode = 400) ∧
    (dictLookup task_id tasks = none →
      A2A.send_message_to_task env agent_name task_id message exchange st tasks
        = (.error (.notFound ("Task " ++ task_id ++ " not found")), st, tasks)) := by
  constructor
  · intro task hfound hterm
    have hc : task.state = A2A.TaskState.canceled ∨ task.state = A2A.TaskState.failed :=
      hterm.symm
    exact ⟨by simp [A2A.send_message_to_task, hfound, hc], rfl⟩
  · intro hnone
    simp [A2A.send_message_to_task, hnone]

/-- Witness for C2: a failed stored task is rejected with the
400-equivalent failure and the store is unchanged; an unknown id is
rejected with `NotFound`. -/
theorem send_message_rejects_terminal_and_unknown_witness :
    (A2A.send_message_to_task sampleEnv "echo" "t1" sampleMessage sampleExchangeOk
        memWithEcho [("t1", sampleFailedTask)]
      = (.error (.invalidState ("Cannot send message to task in state "
          ++ sampleFailedTask.state.value)), memWithEcho, [("t1", sampleFailedTask)]) ∧
     (A2A.A2AFailure.invalidState ("Cannot send message to task in state "
        ++ sampleFailedTask.state.value)).statusCode = 400) ∧
    A2A.send_message_to_task sampleEnv "echo" "missing" sampleMessage sampleExchangeOk
        memWithEcho [("t1", sampleFailedTask)]
      = (.error (.notFound ("Task " ++ "missing" ++ " not found")), memWithEcho,
         [("t1", sampleFailedTask)]) :=
  ⟨(send_message_rejects_terminal_and_unknown sampleEnv "echo" "t1" sampleMessage
      sampleExchangeOk memWithEcho [("t1", sampleFailedTask)]).1
      sampleFailedTask rfl (Or.inl rfl),
   (send_message_rejects_terminal_and_unknown sampleEnv "echo" "missing" sampleMessage
      sampleExchangeOk memWithEcho [("t1", sampleFailedTask)]).2 rfl⟩

/-! ## Claim C3 -/

/-- C3: `cancel_task` on a stored task unconditionally sets its state
to `canceled` whatever the prior state was, so cancelling twice yields
`canceled` both times; on an unknown task id it fails with
`NotFound`. -/
theorem cancel_task_unconditional_and_idempotent
    (task_id : String) (tasks : A2A.TaskStore) :
    (∀ task : A2A.Task, dictLookup task_id tasks = some task →
      ∃ t1 : A2A.Task,
        (A2A.cancel_task task_id tasks).1 = .ok t1 ∧ t1.state = .canceled ∧
        ∃ t2 : A2A.Task,
          (A2A.cancel_task task_id (A2A.cancel_task task_id tasks).2).1 = .ok t2 ∧
          t2.state = .canceled) ∧
    (dictLookup task_id tasks = none →
      (A2A.cancel_task task_id tasks).1
        = .error (.notFound ("Task " ++ task_id ++ " not found"))) := by
  constructor
  · intro task hfound
    refine ⟨{ task with state := .canceled }, ?_, rfl, ?_⟩
    · simp [A2A.cancel_task, hfound]
    · refine ⟨{ task with state := .canceled }, ?_, rfl⟩
      simp [A2A.cancel_task, hfound, dictLookup_insert_self]
  · intro hnone
    simp [A2A.cancel_task, hnone]

/-- Witness for C3: cancelling a task that is already `failed`
(a terminal state) yields `canceled`, and cancelling again yields
`canceled` again; an unknown id fails `NotFound`. -/
theorem cancel_task_unconditional_and_idempotent_witness :
    (∃ t1 : A2A.Task,
      (A2A.cancel_task "t1" [("t1", sampleFailedTask)]).1 = .ok t1 ∧
      t1.state = .canceled ∧
      ∃ t2 : A2A.Task,
        (A2A.cancel_task "t1" (A2A.cancel_task "t1" [("t1", sampleFailedTask)]).2).1
          = .ok t2 ∧ t2.state = .canceled) ∧
    (A2A.cancel_task "missing" [("t1", sampleFailedTask)]).1
      = .error (.notFound ("Task " ++ "missing" ++ " not found")) :=
  ⟨(cancel_task_unconditional_and_idempotent "t1" [("t1", sampleFailedTask)]).1
      sampleFailedTask rfl,
   (cancel_task_unconditional_and_idempotent "missing" [("t1", sampleFailedTask)]).2 rfl⟩

/-! ## Claim C7 -/

/-- C7: the payload submitted to the runtime is the in-order
concatenation of the text of the message's text parts (non-text parts,
whose `text` is absent, are dropped); the aggregate reply is the
in-order concatenation of every text fragment found in the response
events, supporting both the structured content-with-parts shape and
the flat-text shape; and the reply appended to the task is a single
agent message with exactly one text part carrying that aggregate. -/
theorem exchange_concatenates_text_parts
    (env : FactoryEnv) (agent_name : String) (request : A2A.TaskCreateRequest)
    (task_id fresh_session : String) (exchange : A2A.Exchange)
    (st st2 : RegistryState) (tasks : A2A.TaskStore) (a : AgentInstance)
    (hdeployed : Registry.get_agent_instance env agent_name st = (some a, st2)) :
    A2A.extractUserText request.message
      = String.join (request.message.parts.filterMap A2A.Part.text) ∧
    (∀ events : List A2A.RunEvent,
      A2A.aggregateResponse events = String.join (events.map A2A.eventText)) ∧
    (∀ parts : List (Option String),
      A2A.eventText (.structured parts) = String.join (parts.filterMap id)) ∧
    (∀ t : Option String, A2A.eventText (.flat t) = t.getD "") ∧
    (∀ s : String, A2A.agentReply s
      = { role := .agent, parts := [{ partType := "text", text := some s }] }) ∧
    (∀ events, exchange (A2A.extractUserText request.message) = .ok events →
      ∃ t : A2A.Task,
        (A2A.create_task env agent_name request task_id fresh_session exchange st tasks).1
          = .ok t ∧
        t.messages
          = [request.message,
             A2A.agentReply (String.join (events.map A2A.eventText))]) := by
  have hextract : A2A.extractUserText request.message
      = String.join (request.message.parts.filterMap A2A.Part.text) := by
    unfold A2A.extractUserText
    rw [foldl_append_eq (fun p => A2A.textContrib p.text) request.message.parts "",
      String.empty_append]
    have hmm : request.message.parts.map (fun p => A2A.textContrib p.text)
        = (request.message.parts.map A2A.Part.text).map A2A.textContrib := by
      rw [List.map_map]
      rfl
    rw [hmm, join_textContrib_eq_filterMap]
    congr 1
    rw [List.filterMap_map]
    rfl
  have hagg : ∀ events : List A2A.RunEvent,
      A2A.aggregateResponse events = String.join (events.map A2A.eventText) := by
    intro events
    unfold A2A.aggregateResponse
    rw [foldl_append_eq A2A.eventText events "", String.empty_append]
  have hstruct : ∀ parts : List (Option String),
      A2A.eventText (.structured parts) = String.join (parts.filterMap id) := by
    intro parts
    show parts.foldl (fun acc o => acc ++ A2A.textContrib o) "" = _
    rw [foldl_append_eq A2A.textContrib parts "", String.empty_append,
      join_textContrib_eq_filterMap]
  have hflat : ∀ t : Option String, A2A.eventText (.flat t) = t.getD "" := by
    intro t
    cases t with
    | none => rfl
    | some s =>
      show A2A.textContrib (some s) = s
      simp only [A2A.textContrib]
      by_cases hs : s.isEmpty
      · rw [if_pos hs, (String.isEmpty_iff s).mp hs]
      · rw [if_neg hs]
  refine ⟨hextract, hagg, hstruct, hflat, fun _ => rfl, ?_⟩
  intro events hex
  refine ⟨{ id := task_id
            session_id := some (request.session_id.getD fresh_session)
            state := .completed
            messages := [request.message, A2A.agentReply (A2A.aggregateResponse events)]
            metadata := request.metadata }, ?_, ?_⟩
  · simp [A2A.create_task, hdeployed, hex]
  · rw [hagg events]

/-- Witness for C7 at concrete inputs: the payload drops the non-text
part, and the reply to a two-event stream (one structured, one flat)
is the concatenation "hello". -/
theorem exchange_concatenates_text_parts_witness :
    A2A.extractUserText sampleRequest.message
      = String.join (sampleRequest.message.parts.filterMap A2A.Part.text) ∧
    A2A.extractUserText sampleRequest.message = "hi" ∧
    (∃ t : A2A.Task,
      (A2A.create_task sampleEnv "echo" sampleRequest "t9" "s9" sampleExchangeOk
          memWithEcho []).1 = .ok t ∧
      t.messages
        = [sampleRequest.message,
           A2A.agentReply (String.join
             ([A2A.RunEvent.structured [some "hel", none],
               A2A.RunEvent.flat (some "lo")].map A2A.eventText))]) ∧
    A2A.agentReply (String.join
        ([A2A.RunEvent.structured [some "hel", none],
          A2A.RunEvent.flat (some "lo")].map A2A.eventText))
      = { role := .agent, parts := [{ partType := "text", text := some "hello" }] } :=
  ⟨(exchange_concatenates_text_parts sampleEnv "echo" sampleRequest "t9" "s9"
      sampleExchangeOk memWithEcho memWithEcho [] sampleInstance rfl).1,
   by decide,
   (exchange_concatenates_text_parts sampleEnv "echo" sampleRequest "t9" "s9"
      sampleExchangeOk memWithEcho memWithEcho [] sampleInstance rfl).2.2.2.2.2
      [.structured [some "hel", none], .flat (some "lo")] rfl,
   by decide⟩

/-! ## Claim C5 -/

/-- C5: requesting the agent card of an unknown agent does NOT produce
the 404-equivalent `HTTPException` the spec (and the handler's own dead
`if not agent_response` guard) intend: `registry.get_agent` raises
`ValueError` instead of returning a falsy value, the handler has no
`except` clause, and the exception escapes unhandled (a generic
500-equivalent).  The first conjunct shows the handler can never
produce an `HTTPException` at all; the second evaluates it on a
concrete unknown agent. -/
theorem agent_card_unknown_agent_is_unhandled_500 :
    (∀ (base_url name : String) (st : RegistryState) (code : Nat) (detail : String),
      A2A.get_agent_card base_url name st ≠ .httpError code detail) ∧
    A2A.get_agent_card "https://a2a.example" "ghost" memEmpty
      = .unhandledError ("Agent " ++ "ghost" ++ " not found") := by
  constructor
  · intro base_url name st code detail
    unfold A2A.get_agent_card
    cases Registry.get_agent name st with
    | error e => cases e <;> simp
    | ok resp => simp
  · rfl

/-! ## Helper lemmas about registry status updates -/

theorem updateStatus_agents (name : String) (status : AgentStatus) (now : Nat)
    (f : MemMeta → MemMeta) (st : RegistryState) :
    (Registry.updateStatus name status now f st).agents = st.agents := by
  unfold Registry.updateStatus Registry.updMemMeta
  cases st.storage with
  | some db => rfl
  | none => cases dictLookup name st.metadata <;> rfl

theorem updateStatus_definitions (name : String) (status : AgentStatus) (now : Nat)
    (f : MemMeta → MemMeta) (st : RegistryState) :
    (Registry.updateStatus name status now f st).definitions = st.definitions := by
  unfold Registry.updateStatus Registry.updMemMeta
  cases st.storage with
  | some db => rfl
  | none => cases dictLookup name st.metadata <;> rfl

theorem statusOf_updateStatus (j name : String) (status : AgentStatus) (now : Nat)
    (f : MemMeta → MemMeta) (hf : ∀ m, (f m).status = status) (st : RegistryState) :
    Registry.statusOf j (Registry.updateStatus name status now f st)
      = Registry.statusOf j st ∨
    Registry.statusOf j (Registry.updateStatus name status now f st) = some status := by
  unfold Registry.updateStatus Registry.updMemMeta Registry.statusOf
  cases hst : st.storage with
  | some db =>
    unfold Cosmos.update_agent_status
    cases hdb : dictLookup name db with
    | none => left; simp [hdb]
    | some item =>
      by_cases hj : j = name
      · subst hj
        right
        simp [hdb, dictLookup_insert_self]
      · left
        simp [hdb, dictLookup_insert_of_ne hj]
  | none =>
    cases hmm : dictLookup name st.metadata with
    | none => left; simp [hst, hmm]
    | some m =>
      by_cases hj : j = name
      · subst hj
        right
        simp [dictLookup_insert_self, hf]
      · left
        simp [hst, dictLookup_insert_of_ne hj]

/-! ## Claim C9 -/

/-- C9: when the instance cache misses but the persisted record is
`ACTIVE`, `get_agent_instance` rebuilds the instance passing an empty
sub-agent list to the factory, so the restored instance has no
sub-agents wired even when the persisted definition declares some —
unlike the factory call made by an explicit `deploy_agent`, which
passes the resolved cached sub-agent instances through to the built
instance. -/
theorem lazy_restore_drops_declared_sub_agents
    (env : FactoryEnv) (name : String) (st : RegistryState) (db : CosmosDb)
    (item : StoredItem)
    (hnc : dictLookup name st.agents = none)
    (hs : st.storage = some db)
    (hitem : Cosmos.get_agent db name = some item)
    (hact : item.status = .active)
    (hok : env.ctorFail = none) :
    (∃ inst : AgentInstance,
      (Registry.get_agent_instance env name st).1 = some inst ∧
      inst.subAgents = []) ∧
    (∀ (definition : AgentDefinition) (subs : List AgentInstance),
      ∃ built : AgentInstance,
        factory_create_agent env definition subs = .ok built ∧
        built.subAgents = subs) ∧
    (∀ (n2 : String) (now : Nat) (st2 : RegistryState) (d2 : AgentDefinition),
      Registry.getDefinition n2 st2 = some d2 →
      ∃ deployed : AgentInstance,
        dictLookup n2 (Registry.deploy_agent env n2 now st2).2.agents = some deployed ∧
        deployed.subAgents
          = d2.sub_agents.filterMap (fun m => dictLookup m st2.agents)) := by
  refine ⟨?_, ?_, ?_⟩
  · refine ⟨.mk item.name env.modelBinding item.system_prompt item.description
        (create_tools env item.tools) [], ?_, rfl⟩
    simp [Registry.get_agent_instance, hnc, hs, hitem, hact, factory_create_agent,
      hok, Cosmos.to_definition]
  · intro definition subs
    refine ⟨.mk definition.name env.modelBinding definition.system_prompt
        definition.description (create_tools env definition.tools) subs, ?_, rfl⟩
    simp [factory_create_agent, hok]
  · intro n2 now st2 d2 hdef
    refine ⟨.mk d2.name env.modelBinding d2.system_prompt d2.description
        (create_tools env d2.tools)
        (d2.sub_agents.filterMap (fun m => dictLookup m st2.agents)), ?_, rfl⟩
    simp only [Registry.deploy_agent, hdef, factory_create_agent, hok,
      updateStatus_agents, dictLookup_insert_self]

/-- Witness for C9: a persisted active "echo" item declaring the
sub-agent "helper" is restored with an empty sub-agent list. -/
theorem lazy_restore_drops_declared_sub_agents_witness :
    ∃ inst : AgentInstance,
      (Registry.get_agent_instance sampleEnv "echo" cosmosWithActiveEcho).1 = some inst ∧
      inst.subAgents = [] :=
  (lazy_restore_drops_declared_sub_agents sampleEnv "echo" cosmosWithActiveEcho
    [("echo", (Cosmos.save_agent []
      { sampleDefinition with sub_agents := ["helper"] } "id-1" .active 0).1)]
    (Cosmos.save_agent [] { sampleDefinition with sub_agents := ["helper"] } "id-1" .active 0).1
    rfl rfl rfl rfl rfl).1

/-! ## More helper lemmas about status updates -/

theorem recordedError_of_storage_some {st : RegistryState} {db : CosmosDb}
    (n : String) (hst : st.storage = some db) :
    Registry.recordedError n st = none := by
  unfold Registry.recordedError
  rw [hst]

theorem updateStatus_storage_some (name : String) (status : AgentStatus) (now : Nat)
    (f : MemMeta → MemMeta) {st : RegistryState} {db : CosmosDb}
    (hst : st.storage = some db) :
    (Registry.updateStatus name status now f st).storage
      = some (Cosmos.update_agent_status db name status now).2 := by
  unfold Registry.updateStatus
  rw [hst]

theorem statusOf_updateStatus_self (name : String) (status : AgentStatus) (now : Nat)
    (f : MemMeta → MemMeta) (hf : ∀ m, (f m).status = status) (st : RegistryState)
    (hpresent : Registry.statusOf name st ≠ none) :
    Registry.statusOf name (Registry.updateStatus name status now f st) = some status := by
  cases hst : st.storage with
  | some db =>
    have hpres2 : Option.map StoredItem.status (dictLookup name db) ≠ none := by
      intro h0
      apply hpresent
      unfold Registry.statusOf
      rw [hst]
      exact h0
    cases hdb : dictLookup name db with
    | none => rw [hdb] at hpres2; simp at hpres2
    | some item =>
      unfold Registry.statusOf Registry.updateStatus Cosmos.update_agent_status
      rw [hst]
      simp [hdb, dictLookup_insert_self]
  | none =>
    have hpres2 : Option.map MemMeta.status (dictLookup name st.metadata) ≠ none := by
      intro h0
      apply hpresent
      unfold Registry.statusOf
      rw [hst]
      exact h0
    cases hm : dictLookup name st.metadata with
    | none => rw [hm] at hpres2; simp at hpres2
    | some m =>
      unfold Registry.statusOf Registry.updateStatus Registry.updMemMeta
      rw [hst]
      simp [hm, dictLookup_insert_self, hf]

/-! ## Claim C4 -/

/-- C4 counterexample: with Cosmos storage configured, a deploy whose
factory raises "boom" sets the status to FAILED and propagates the
exception, but records no error message anywhere on the agent record —
`update_agent_status` writes only the status, and the stored item
schema has no error field.  This refutes the claim that every failing
deploy records the error message on the record. -/
theorem deploy_failure_error_not_recorded_with_storage :
    (Registry.deploy_agent sampleEnvFail "echo" 1 cosmosWithDraftEcho).1
      = .error (.exc "boom") ∧
    Registry.statusOf "echo"
        (Registry.deploy_agent sampleEnvFail "echo" 1 cosmosWithDraftEcho).2
      = some .failed ∧
    Registry.recordedError "echo"
        (Registry.deploy_agent sampleEnvFail "echo" 1 cosmosWithDraftEcho).2
      = none := by
  refine ⟨rfl, rfl, rfl⟩

/-- C4 (amended): when the Instance Factory raises during deploy, the
registry sets the agent's status to FAILED (never rolling it back to
DRAFT) and propagates the exception to the caller; the error message
is additionally recorded on the record only in the in-memory
configuration — with Cosmos storage configured, only the status is
written and no error message is recorded (the item schema has no error
field). -/
theorem deploy_failure_sets_failed_and_propagates
    (env : FactoryEnv) (name : String) (now : Nat) (st : RegistryState)
    (definition : AgentDefinition) (errmsg : String)
    (hdef : Registry.getDefinition name st = some definition)
    (hfail : env.ctorFail = some errmsg)
    (hmeta : st.storage = none → (dictLookup name st.metadata).isSome) :
    (Registry.deploy_agent env name now st).1 = .error (.exc errmsg) ∧
    Registry.statusOf name (Registry.deploy_agent env name now st).2 = some .failed ∧
    Registry.statusOf name (Registry.deploy_agent env name now st).2 ≠ some .draft ∧
    (st.storage = none →
      Registry.recordedError name (Registry.deploy_agent env name now st).2
        = some errmsg) ∧
    (∀ db : CosmosDb, st.storage = some db →
      Registry.recordedError name (Registry.deploy_agent env name now st).2 = none) := by
  have hred : Registry.deploy_agent env name now st
      = (.error (.exc errmsg),
         Registry.updateStatus name .failed now
           (fun m => { m with status := .failed, error := some errmsg })
           (Registry.updateStatus name .deploying now
             (fun m => { m with status := .deploying, updated_at := now }) st)) := by
    unfold Registry.deploy_agent
    rw [hdef]
    simp [factory_create_agent, hfail]
  have hpresent : Registry.statusOf name st ≠ none := by
    cases hst : st.storage with
    | some db =>
      have hdef2 : (match dictLookup name db with
          | some item => some (Cosmos.to_definition item)
          | none => none) = some definition := by
        rw [← hdef]
        unfold Registry.getDefinition Cosmos.get_agent
        rw [hst]
      intro h0
      have h1 : Option.map StoredItem.status (dictLookup name db) = none := by
        rw [← h0]
        unfold Registry.statusOf
        rw [hst]
      cases hdb : dictLookup name db with
      | none => rw [hdb] at hdef2; cases hdef2
      | some item => rw [hdb] at h1; cases h1
    | none =>
      have h2 := hmeta hst
      intro h0
      have h1 : Option.map MemMeta.status (dictLookup name st.metadata) = none := by
        rw [← h0]
        unfold Registry.statusOf
        rw [hst]
      cases hm : dictLookup name st.metadata with
      | none => rw [hm] at h2; simp at h2
      | some m => rw [hm] at h1; cases h1
  have hpres1 : Registry.statusOf name
      (Registry.updateStatus name .deploying now
        (fun m => { m with status := .deploying, updated_at := now }) st) ≠ none := by
    rw [statusOf_updateStatus_self name .deploying now _ (fun m => rfl) st hpresent]
    simp
  have hfailed : Registry.statusOf name (Registry.deploy_agent env name now st).2
      = some .failed := by
    rw [hred]
    exact statusOf_updateStatus_self name .failed now _ (fun m => rfl) _ hpres1
  refine ⟨by rw [hred], hfailed, by rw [hfailed]; simp, ?_, ?_⟩
  · intro hst
    obtain ⟨m, hm⟩ := Option.isSome_iff_exists.mp (hmeta hst)
    have h1 : Registry.updateStatus name .deploying now
        (fun mm => { mm with status := .deploying, updated_at := now }) st
        = { st with metadata := dictInsert name { m with status := AgentStatus.deploying, updated_at := now } st.metadata } := by
      unfold Registry.updateStatus Registry.updMemMeta
      rw [hst, hm]
    rw [hred, h1]
    unfold Registry.updateStatus Registry.updMemMeta Registry.recordedError
    simp [hst, dictLookup_insert_self]
  · intro db hst
    have h1 := updateStatus_storage_some name .deploying now
      (fun m => { m with status := .deploying, updated_at := now }) hst
    rw [hred]
    exact recordedError_of_storage_some name
      (updateStatus_storage_some name .failed now _ h1)

/-- Witness for C4 (amended), in the in-memory configuration: a failed
deploy of a registered agent leaves status FAILED with the error
message recorded. -/
theorem deploy_failure_sets_failed_and_propagates_witness :
    (Registry.deploy_agent sampleEnvFail "echo" 1 memWithEcho).1
      = .error (.exc "boom") ∧
    Registry.statusOf "echo" (Registry.deploy_agent sampleEnvFail "echo" 1 memWithEcho).2
      = some .failed ∧
    Registry.statusOf "echo" (Registry.deploy_agent sampleEnvFail "echo" 1 memWithEcho).2
      ≠ some .draft ∧
    Registry.recordedError "echo"
        (Registry.deploy_agent sampleEnvFail "echo" 1 memWithEcho).2
      = some "boom" := by
  have h := deploy_failure_sets_failed_and_propagates sampleEnvFail "echo" 1 memWithEcho
    sampleDefinition "boom" rfl rfl (fun _ => rfl)
  exact ⟨h.1, h.2.1, h.2.2.1, h.2.2.2.1 rfl⟩

/-! ## Helper lemmas for the draft-status temporal claim -/

theorem statusOf_congr (name : String) {st1 st2 : RegistryState}
    (hs : st1.storage = st2.storage) (hm : st1.metadata = st2.metadata) :
    Registry.statusOf name st1 = Registry.statusOf name st2 := by
  unfold Registry.statusOf
  rw [hs, hm]

theorem statusOf_ne_draft_after_two_updates
    (name n : String) (s1 s2 : AgentStatus) (now1 now2 : Nat)
    (f1 f2 : MemMeta → MemMeta)
    (hf1 : ∀ m, (f1 m).status = s1) (hf2 : ∀ m, (f2 m).status = s2)
    (h1 : s1 ≠ .draft) (h2 : s2 ≠ .draft)
    (st stMid : RegistryState)
    (hsm : stMid.storage = (Registry.updateStatus n s1 now1 f1 st).storage)
    (hmm : stMid.metadata = (Registry.updateStatus n s1 now1 f1 st).metadata)
    (hnd : Registry.statusOf name st ≠ some .draft) :
    Registry.statusOf name (Registry.updateStatus n s2 now2 f2 stMid) ≠ some .draft := by
  have hmid : Registry.statusOf name stMid ≠ some .draft := by
    rw [statusOf_congr name hsm hmm]
    rcases statusOf_updateStatus name n s1 now1 f1 hf1 st with h | h
    · rw [h]; exact hnd
    · rw [h]
      intro hc
      injection hc with hc2
      exact h1 hc2
  rcases statusOf_updateStatus name n s2 now2 f2 hf2 stMid with h | h
  · rw [h]; exact hmid
  · rw [h]
    intro hc
    injection hc with hc2
    exact h2 hc2

theorem statusOf_deploy_ne_draft (env : FactoryEnv) (n : String) (now : Nat)
    (st : RegistryState) (name : String)
    (hnd : Registry.statusOf name st ≠ some .draft) :
    Registry.statusOf name (Registry.deploy_agent env n now st).2 ≠ some .draft := by
  simp only [Registry.deploy_agent]
  cases hdef : Registry.getDefinition n st with
  | none => exact hnd
  | some d =>
    cases hcf : env.ctorFail with
    | none =>
      simp only [factory_create_agent, hcf]
      exact statusOf_ne_draft_after_two_updates name n .deploying .active now now _ _
        (fun m => rfl) (fun m => rfl) (by simp) (by simp) st _ rfl rfl hnd
    | some e =>
      simp only [factory_create_agent, hcf]
      exact statusOf_ne_draft_after_two_updates name n .deploying .failed now now _ _
        (fun m => rfl) (fun m => rfl) (by simp) (by simp) st _ rfl rfl hnd

theorem statusOf_delete_ne_draft (n : String) (st : RegistryState) (name : String)
    (hwfm : st.storage = none → keysNodup st.metadata)
    (hwfs : ∀ db : CosmosDb, st.storage = some db → keysNodup db)
    (hnd : Registry.statusOf name st ≠ some .draft) :
    Registry.statusOf name (Registry.delete_agent n st).2 ≠ some .draft := by
  simp only [Registry.delete_agent]
  cases hst : st.storage with
  | some db =>
    simp only [Cosmos.delete_agent]
    cases hdb : dictLookup n db with
    | none => exact hnd
    | some item =>
      unfold Registry.statusOf
      by_cases hj : name = n
      · subst hj
        simp [dictLookup_erase_self name db (hwfs db hst)]
      · rw [show Registry.statusOf name st
            = Option.map StoredItem.status (dictLookup name db) from by
          unfold Registry.statusOf; rw [hst]] at hnd
        simpa [dictLookup_erase_of_ne hj] using hnd
  | none =>
    cases hdefs : dictLookup n st.definitions with
    | none => exact hnd
    | some d =>
      unfold Registry.statusOf
      by_cases hj : name = n
      · subst hj
        simp [dictLookup_erase_self name st.metadata (hwfm hst)]
      · rw [show Registry.statusOf name st
            = Option.map MemMeta.status (dictLookup name st.metadata) from by
          unfold Registry.statusOf; rw [hst]] at hnd
        simpa [dictLookup_erase_of_ne hj] using hnd

/-! ## Claim C6 -/

/-- C6 counterexample: starting from an empty in-memory registry,
register "echo", deploy it (status becomes ACTIVE, i.e. the status has
left DRAFT), then register "echo" again: the upsert resets the status
to DRAFT.  This refutes the claim that no reachable operation sequence
transitions a status from ACTIVE back to DRAFT. -/
theorem reregister_resets_active_status_to_draft :
    Registry.statusOf "echo"
        (runOps sampleEnv 0
          [.registerOp sampleDefinition false "i1", .deployOp "echo"] memEmpty)
      = some .active ∧
    Registry.statusOf "echo"
        (runOps sampleEnv 0
          [.registerOp sampleDefinition false "i1", .deployOp "echo",
           .registerOp sampleDefinition false "i2"] memEmpty)
      = some .draft := by
  constructor
  · rfl
  · rfl

/-- C6 (amended): once an agent's status has left DRAFT, the deploy
and delete operations never take it back to DRAFT (deploy only writes
DEPLOYING/ACTIVE/FAILED; delete removes the record); only
re-registering the same name — an upsert — resets the status to DRAFT.
Stated for stores without duplicate keys, which every reachable store
satisfies. -/
theorem nonregister_ops_never_restore_draft
    (env : FactoryEnv) (now : Nat) (op : RegOp) (st : RegistryState) (name : String)
    (hwfm : st.storage = none → keysNodup st.metadata)
    (hwfs : ∀ db : CosmosDb, st.storage = some db → keysNodup db)
    (hnd : Registry.statusOf name st ≠ some .draft)
    (hop : op.isRegister = false) :
    Registry.statusOf name (runOp env now op st) ≠ some .draft := by
  cases op with
  | registerOp d b i => simp [RegOp.isRegister] at hop
  | deployOp n => exact statusOf_deploy_ne_draft env n now st name hnd
  | deleteOp n => exact statusOf_delete_ne_draft n st name hwfm hwfs hnd

/-- Witness for C6 (amended): deploying and then deleting the active
"echo" agent never shows DRAFT. -/
theorem nonregister_ops_never_restore_draft_witness :
    Registry.statusOf "echo" (runOp sampleEnv 5 (.deployOp "echo") memWithEcho)
      ≠ some .draft ∧
    Registry.statusOf "echo" (runOp sampleEnv 5 (.deleteOp "echo") memWithEcho)
      ≠ some .draft :=
  ⟨nonregister_ops_never_restore_draft sampleEnv 5 (.deployOp "echo") memWithEcho "echo"
      (fun _ => by unfold keysNodup; decide) (fun db h => by cases h) (by decide) rfl,
   nonregister_ops_never_restore_draft sampleEnv 5 (.deleteOp "echo") memWithEcho "echo"
      (fun _ => by unfold keysNodup; decide) (fun db h => by cases h) (by decide) rfl⟩

/-! ## Helper lemmas for the register/deploy chain -/

theorem deploy_fail_core (env : FactoryEnv) (name : String) (now : Nat)
    (st : RegistryState) (errmsg : String)
    (hfail : env.ctorFail = some errmsg)
    (definition : AgentDefinition)
    (hdef : Registry.getDefinition name st = some definition) :
    Registry.deploy_agent env name now st
      = (.error (.exc errmsg),
         Registry.updateStatus name .failed now
           (fun m => { m with status := .failed, error := some errmsg })
           (Registry.updateStatus name .deploying now
             (fun m => { m with status := .deploying, updated_at := now }) st)) := by
  unfold Registry.deploy_agent
  rw [hdef]
  simp [factory_create_agent, hfail]

theorem getDefinition_updateStatus (j n : String) (status : AgentStatus) (now : Nat)
    (f : MemMeta → MemMeta) (st : RegistryState) :
    Registry.getDefinition j (Registry.updateStatus n status now f st)
      = Registry.getDefinition j st := by
  unfold Registry.getDefinition Registry.updateStatus Registry.updMemMeta
  cases hst : st.storage with
  | some db =>
    unfold Cosmos.get_agent Cosmos.update_agent_status
    cases hdb : dictLookup n db with
    | none => simp [hdb]
    | some item =>
      by_cases hj : j = n
      · subst hj
        simp [hdb, dictLookup_insert_self, Cosmos.to_definition]
      · simp [hdb, dictLookup_insert_of_ne hj]
  | none =>
    cases hm : dictLookup n st.metadata <;> simp [hm, hst]

theorem register_chain_fail (env : FactoryEnv) (definition : AgentDefinition)
    (agent_id : String) (now : Nat) (st : RegistryState) (errmsg : String)
    (hfail : env.ctorFail = some errmsg) :
    ∃ st2 : RegistryState,
      Registry.register_agent env definition true agent_id now st
        = (.error (.exc errmsg), st2) ∧
      Registry.getDefinition definition.name st2 = some definition ∧
      Registry.statusOf definition.name st2 = some .failed := by
  cases hst : st.storage with
  | some db =>
    set stS : RegistryState :=
      { st with storage := some (Cosmos.save_agent db definition agent_id .draft now).2 }
      with hstS
    have hd1 : Registry.getDefinition definition.name stS = some definition := by
      rw [hstS]
      unfold Registry.getDefinition Cosmos.get_agent Cosmos.save_agent
      simp [dictLookup_insert_self, Cosmos.to_definition]
    have hm1 : Registry.statusOf definition.name stS ≠ none := by
      rw [hstS]
      unfold Registry.statusOf Cosmos.save_agent
      simp [dictLookup_insert_self]
    have hred := deploy_fail_core env definition.name now stS errmsg hfail definition hd1
    refine ⟨(Registry.deploy_agent env definition.name now stS).2, ?_, ?_, ?_⟩
    · have hrw : Registry.register_agent env definition true agent_id now st
          = match Registry.deploy_agent env definition.name now stS with
            | (.error e, st2) => (.error e, st2)
            | (.ok _, st2) => (Registry.buildResponse definition.name st2, st2) := by
        unfold Registry.register_agent
        rw [hst]
        rfl
      rw [hrw, hred]
    · rw [hred]
      rw [show ((Except.error (RegError.exc errmsg) : Except RegError AgentResponse),
          Registry.updateStatus definition.name .failed now
            (fun m => { m with status := .failed, error := some errmsg })
            (Registry.updateStatus definition.name .deploying now
              (fun m => { m with status := .deploying, updated_at := now }) stS)).2
          = Registry.updateStatus definition.name .failed now
            (fun m => { m with status := .failed, error := some errmsg })
            (Registry.updateStatus definition.name .deploying now
              (fun m => { m with status := .deploying, updated_at := now }) stS) from rfl]
      rw [getDefinition_updateStatus, getDefinition_updateStatus]
      exact hd1
    · rw [hred]
      have hp1 : Registry.statusOf definition.name
          (Registry.updateStatus definition.name .deploying now
            (fun m => { m with status := .deploying, updated_at := now }) stS)
          ≠ none := by
        rw [statusOf_updateStatus_self definition.name .deploying now
          (fun m => { m with status := .deploying, updated_at := now }) (fun m => rfl) stS hm1]
        simp
      exact statusOf_updateStatus_self definition.name .failed now
        (fun m => { m with status := .failed, error := some errmsg }) (fun m => rfl) _ hp1
  | none =>
    set stM : RegistryState :=
      { st with
        storage := none
        definitions := dictInsert definition.name definition st.definitions
        metadata := dictInsert definition.name
          { id := agent_id, created_at := now, updated_at := now, status := .draft }
          st.metadata }
      with hstM
    have hd1 : Registry.getDefinition definition.name stM = some definition := by
      rw [hstM]
      unfold Registry.getDefinition
      simp [hst, dictLookup_insert_self]
    have hm1 : Registry.statusOf definition.name stM ≠ none := by
      rw [hstM]
      unfold Registry.statusOf
      simp [hst, dictLookup_insert_self]
    have hred := deploy_fail_core env definition.name now stM errmsg hfail definition hd1
    refine ⟨(Registry.deploy_agent env definition.name now stM).2, ?_, ?_, ?_⟩
    · have hrw : Registry.register_agent env definition true agent_id now st
          = match Registry.deploy_agent env definition.name now stM with
            | (.error e, st2) => (.error e, st2)
            | (.ok _, st2) => (Registry.buildResponse definition.name st2, st2) := by
        unfold Registry.register_agent
        rw [hst]
        rfl
      rw [hrw, hred]
    · rw [hred]
      rw [show ((Except.error (RegError.exc errmsg) : Except RegError AgentResponse),
          Registry.updateStatus definition.name .failed now
            (fun m => { m with status := .failed, error := some errmsg })
            (Registry.updateStatus definition.name .deploying now
              (fun m => { m with status := .deploying, updated_at := now }) stM)).2
          = Registry.updateStatus definition.name .failed now
            (fun m => { m with status := .failed, error := some errmsg })
            (Registry.updateStatus definition.name .deploying now
              (fun m => { m with status := .deploying, updated_at := now }) stM) from rfl]
      rw [getDefinition_updateStatus, getDefinition_updateStatus]
      exact hd1
    · rw [hred]
      have hp1 : Registry.statusOf definition.name
          (Registry.updateStatus definition.name .deploying now
            (fun m => { m with status := .deploying, updated_at := now }) stM)
          ≠ none := by
        rw [statusOf_updateStatus_self definition.name .deploying now
          (fun m => { m with status := .deploying, updated_at := now }) (fun m => rfl) stM hm1]
        simp
      exact statusOf_updateStatus_self definition.name .failed now
        (fun m => { m with status := .failed, error := some errmsg }) (fun m => rfl) _ hp1

/-! ## Claim C10 -/

/-- C10: when `register` chains into a deploy whose factory raises,
the registration is not rolled back: the exception propagates out of
`register_agent`, the `create_agent` handler surfaces it as a
500-equivalent (not a 400), yet the definition remains stored with
status FAILED — register is not atomic with respect to its own
failure. -/
theorem register_with_deploy_failure_not_atomic
    (env : FactoryEnv) (definition : AgentDefinition) (agent_id : String)
    (now : Nat) (st : RegistryState) (errmsg : String)
    (hfail : env.ctorFail = some errmsg) :
    ∃ st2 : RegistryState,
      Registry.register_agent env definition true agent_id now st
        = (.error (.exc errmsg), st2) ∧
      Registry.getDefinition definition.name st2 = some definition ∧
      Registry.statusOf definition.name st2 = some .failed ∧
      Api.create_agent env definition true agent_id now st
        = (.error { status_code := 500, detail := errmsg }, st2) := by
  obtain ⟨st2, h1, h2, h3⟩ := register_chain_fail env definition agent_id now st errmsg hfail
  refine ⟨st2, h1, h2, h3, ?_⟩
  unfold Api.create_agent
  rw [h1]

/-- Witness for C10: registering "echo" with immediate deploy against
the failing factory leaves the definition stored with status FAILED
while the API call returns a 500. -/
theorem register_with_deploy_failure_not_atomic_witness :
    ∃ st2 : RegistryState,
      Registry.register_agent sampleEnvFail sampleDefinition true "i1" 0 memEmpty
        = (.error (.exc "boom"), st2) ∧
      Registry.getDefinition "echo" st2 = some sampleDefinition ∧
      Registry.statusOf "echo" st2 = some .failed ∧
      Api.create_agent sampleEnvFail sampleDefinition true "i1" 0 memEmpty
        = (.error { status_code := 500, detail := "boom" }, st2) :=
  register_with_deploy_failure_not_atomic sampleEnvFail sampleDefinition "i1" 0
    memEmpty "boom" rfl

/-! ## Claim C8 -/

/-- C8: for every page `p ≥ 1` and page size `s`, `list_agents`
returns the records at positions `(p-1)*s` through `p*s - 1` of the
stable ordering (`allResponses`) together with `total` equal to the
full count; an out-of-range page yields the empty slice (with the same
total) rather than an error. -/
theorem list_agents_paginates
    (st : RegistryState) (page page_size : Nat) (hp : 1 ≤ page) :
    (Registry.list_agents page page_size st).2 = (Registry.allResponses st).length ∧
    (Registry.list_agents page page_size st).1
      = ((Registry.allResponses st).drop ((page - 1) * page_size)).take page_size ∧
    (Registry.list_agents page page_size st).1.length
      = min page_size ((Registry.allResponses st).length - (page - 1) * page_size) ∧
    (∀ i : Nat, i < page_size →
      (Registry.list_agents page page_size st).1[i]?
        = (Registry.allResponses st)[(page - 1) * page_size + i]?) ∧
    ((Registry.allResponses st).length ≤ (page - 1) * page_size →
      (Registry.list_agents page page_size st).1 = []) := by
  have hkey : Registry.list_agents page page_size st
      = (((Registry.allResponses st).drop ((page - 1) * page_size)).take page_size,
         (Registry.allResponses st).length) := by
    unfold Registry.list_agents Registry.allResponses Cosmos.list_agents
    cases st.storage with
    | some db =>
      simp only [List.map_take, List.map_drop, List.length_map]
    | none => rfl
  refine ⟨by rw [hkey], by rw [hkey], ?_, ?_, ?_⟩
  · rw [hkey]
    simp [List.length_take, List.length_drop]
  · intro i hi
    rw [hkey]
    simp only []
    rw [List.getElem?_take, if_pos hi, List.getElem?_drop]
  · intro hout
    rw [hkey]
    simp only []
    rw [List.drop_eq_nil_of_le hout, List.take_nil]

/-- Witness for C8: after registering 15 agents, page 2 with page size
10 returns 5 records with total 15, and the out-of-range page 9 yields
the empty slice. -/
theorem list_agents_paginates_witness :
    1 ≤ 2 ∧
    (Registry.list_agents 2 10 st15).1.length = 5 ∧
    (Registry.list_agents 2 10 st15).2 = 15 ∧
    (Registry.list_agents 9 10 st15).1 = [] := by
  have h2 := list_agents_paginates st15 2 10 (by decide)
  have h9 := list_agents_paginates st15 9 10 (by decide)
  refine ⟨by decide, ?_, ?_, ?_⟩
  · rw [h2.2.2.1]
    decide
  · rw [h2.1]
    decide
  · exact h9.2.2.2.2 (by decide)
